import Mathlib

/-!
Shallow embedding of the scheduling core of the gcal-cli repository
(Go, github.com/btafoya/gcal-cli), covering:

* the structured error values of pkg/types/errors.go and the raw
  googleapi error values they wrap;
* the retry executor Client.withRetry and the classifier isRetryable
  (pkg/calendar/client.go);
* the availability engine IsBusy / CheckConflicts / FindFreeSlots
  (pkg/calendar/freebusy.go) and FindCommonFreeTime (multical file);
* the bounded-concurrency bulk executors BatchCreateEvents /
  BatchUpdateEvents / BatchDeleteEvents (batch file);
* the multi-calendar aggregator ListEventsMultiCalendar;
* the natural-language date parser ParseNaturalLanguageDate and its
  helper matchers (attendees/natural-language file).

Modelling conventions:
* Instants on the Go time.Time line are integers (a fixed unit, e.g.
  minutes); time.Duration values live on the same scale.
* Remote calls are modelled by explicit outcome functions given as
  parameters (Nat-indexed for per-attempt / per-item outcomes).
* Goroutine interleavings are modelled by an explicit completion-order
  list: the order in which the per-task critical sections (the
  mutex-protected result writes, resp. channel sends) execute.
* Error returns use Option/Except; a while loop that may not terminate
  is modelled with explicit fuel, where a none result means the fuel
  bound was exhausted.
-/

namespace GcalCli

/-- pkg/types/errors.go, struct AppError (the wrapped field is lifted
into the error universe GoError below). -/
structure AppErrorData where
  code : String
  message : String
  details : String
  recoverable : Bool
  suggestedAction : String
deriving DecidableEq, Repr

/-- Go error values flowing through the calendar client: raw
googleapi.Error values (HTTP status code and message), structured
AppError values (appError for a nil wrapped field, appErrorW when an
underlying cause is wrapped), fmt.Errorf-wrapped errors, and any other
error value. -/
inductive GoError where
  | apiError (code : Int) (message : String)
  | appError (data : AppErrorData)
  | appErrorW (data : AppErrorData) (wrapped : GoError)
  | wrapf (message : String) (wrapped : GoError)
  | other (message : String)
deriving DecidableEq, Repr

/-- AppError.WithWrappedError / a plain AppError value, as a Go error. -/
def mkAppError (data : AppErrorData) : Option GoError → GoError
  | none => .appError data
  | some e => .appErrorW data e

/-- types.NewAppError. -/
def NewAppError (code message : String) (recoverable : Bool) : AppErrorData :=
  { code := code, message := message, details := "", recoverable := recoverable,
    suggestedAction := "" }

/-- AppError.WithDetails. -/
def withDetails (e : AppErrorData) (details : String) : AppErrorData :=
  { e with details := details }

/-- AppError.WithSuggestedAction. -/
def withSuggestedAction (e : AppErrorData) (action : String) : AppErrorData :=
  { e with suggestedAction := action }

def ErrCodeAPIError : String := "API_ERROR"

def ErrCodeNetworkError : String := "NETWORK_ERROR"

def ErrCodeInvalidInput : String := "INVALID_INPUT"

/-- types.ErrAPIError (package-level value). -/
def ErrAPIError : AppErrorData := NewAppError ErrCodeAPIError "API operation failed" true

/-- types.ErrNetworkError. -/
def ErrNetworkError (message : String) : GoError :=
  .appError (withSuggestedAction (NewAppError ErrCodeNetworkError message true)
    "Check your internet connection and try again")

/-- types.ErrInvalidInput. -/
def ErrInvalidInput (field reason : String) : GoError :=
  .appError (withDetails (NewAppError ErrCodeInvalidInput ("Invalid value for " ++ field) true)
    reason)

/-- The Error() rendering of a Go error value, used where the code
stringifies an error into another error message. AppError.Error() is
"CODE: message (details)" or "CODE: message"; the googleapi rendering is
abbreviated to its stable lead (no claim depends on its exact text). -/
def appErrorString (d : AppErrorData) : String :=
  if d.details != "" then d.code ++ ": " ++ d.message ++ " (" ++ d.details ++ ")"
  else d.code ++ ": " ++ d.message

def goErrorString : GoError → String
  | .apiError code message => "googleapi: Error " ++ toString code ++ ": " ++ message
  | .appError d => appErrorString d
  | .appErrorW d _ => appErrorString d
  | .wrapf message _ => message
  | .other message => message

/-- Equality of Go call outcomes is decidable (used to evaluate the
models on concrete inputs). -/
instance {e a : Type} [DecidableEq e] [DecidableEq a] : DecidableEq (Except e a) := fun x y =>
  match x, y with
  | .error e1, .error e2 =>
    if h : e1 = e2 then isTrue (by rw [h]) else isFalse (by intro hc; injection hc; exact h (by assumption))
  | .ok a1, .ok a2 =>
    if h : a1 = a2 then isTrue (by rw [h]) else isFalse (by intro hc; injection hc; exact h (by assumption))
  | .error _, .ok _ => isFalse (by intro hc; exact Except.noConfusion hc)
  | .ok _, .error _ => isFalse (by intro hc; exact Except.noConfusion hc)

/-! ## Retry executor (pkg/calendar/client.go) -/

/-- NewClient sets MaxRetries to 3 (client.go:26). -/
def defaultMaxRetries : Nat := 3

/-- isRetryable (client.go:66): retry only googleapi errors with status
429, 500, 502, 503 or 504. -/
def isRetryable : GoError → Bool
  | .apiError code _ =>
      code == 429 || code == 500 || code == 502 || code == 503 || code == 504
  | _ => false

/-- Outcome of the retry loop body of withRetry, carrying how many times
fn was invoked. -/
inductive RetryOutcome where
  | success (calls : Nat)
  | failure (lastErr : GoError) (calls : Nat)
deriving DecidableEq, Repr

/-- The loop of Client.withRetry (client.go:35-57): for attempt in
0..MaxRetries, call fn; return on success; record lastErr; break when
the error is not retryable. fn gives the error (none = nil) of each
0-based attempt; remaining = MaxRetries - attempt, so remaining = 0 is
the last iteration, after which the loop exits whether or not the error
was retryable. The backoff sleep only consumes time and the context is
modelled as never cancelled, so it is not represented. -/
def retryLoop (fn : Nat → Option GoError) : Nat → Nat → RetryOutcome
  | 0, attempt =>
    match fn attempt with
    | none => .success (attempt + 1)
    | some err => .failure err (attempt + 1)
  | r + 1, attempt =>
    match fn attempt with
    | none => .success (attempt + 1)
    | some err =>
      if isRetryable err then retryLoop fn r (attempt + 1)
      else .failure err (attempt + 1)

/-- The error built after the loop (client.go:60-62): ErrAPIError with
details "<operation> failed after <MaxRetries+1> attempts", wrapping the
last error. Note the attempt count in the message is always
MaxRetries+1, whatever the actual number of attempts was. -/
def wrapFinalError (operation : String) (maxRetries : Nat) (lastErr : GoError) : GoError :=
  .appErrorW
    (withDetails ErrAPIError
      (operation ++ " failed after " ++ toString (maxRetries + 1) ++ " attempts"))
    lastErr

/-- Client.withRetry (client.go:32-63), for a non-negative MaxRetries.
Returns the error result (none = nil) together with the number of times
fn was invoked. -/
def withRetry (maxRetries : Nat) (operation : String) (fn : Nat → Option GoError) :
    Option GoError × Nat :=
  match retryLoop fn maxRetries 0 with
  | .success calls => (none, calls)
  | .failure lastErr calls => (some (wrapFinalError operation maxRetries lastErr), calls)

/-! ## Availability engine (pkg/calendar/freebusy.go)

The busy-interval data of the single queried calendar, as returned by
QueryFreeBusy for the window, is passed in as a list of (start, end)
instant pairs (the code parses the RFC3339 strings of the response into
time.Time values; the parsed instants are modelled directly). -/

/-- Client.IsBusy (freebusy.go:131-150): after the single-calendar
free/busy query, the calendar counts as busy iff the returned busy list
is non-empty (len(calInfo.Busy) > 0). -/
def IsBusy (busy : List (Int × Int)) : Bool :=
  decide (busy.length > 0)

/-- Client.CheckConflicts (freebusy.go:207-237): collect every returned
busy period overlapping the window (start < periodEnd && end >
periodStart); hasConflict iff the collection is non-empty. -/
def CheckConflicts (busy : List (Int × Int)) (start endT : Int) : Bool × List (Int × Int) :=
  let conflicts := busy.filter fun p => decide (start < p.2) && decide (endT > p.1)
  (decide (conflicts.length > 0), conflicts)

/-- The slot-enumeration while loop shared verbatim by
FindFreeSlots (freebusy.go:179-201) and FindCommonFreeTime
(multical file, lines 178-198): while current + slotDuration <= end,
the candidate slot [current, current+slotDuration) is free iff it
overlaps no busy period; free candidates are appended; current advances
by slotDuration. Fuel bounds the modelled iterations; none means the
loop was still running when the fuel ran out. -/
def slotLoop (busyPeriods : List (Int × Int)) (endT d : Int) : Nat → Int → Option (List Int)
  | 0, _ => none
  | fuel + 1, current =>
    if current + d ≤ endT then
      let slotEnd := current + d
      let isFree := busyPeriods.all fun busy =>
        !(decide (current < busy.2) && decide (slotEnd > busy.1))
      match slotLoop busyPeriods endT d fuel (current + d) with
      | none => none
      | some rest => some (if isFree then current :: rest else rest)
    else
      some []

/-- An a-priori iteration bound that the loop can never exhaust when
0 < slotDuration (each iteration advances current by at least one). -/
def defaultSlotFuel (start endT : Int) : Nat := (endT - start).toNat + 1

/-- Client.FindFreeSlots (freebusy.go:153-204) on the busy data of the
queried calendar. -/
def FindFreeSlots (busyPeriods : List (Int × Int)) (start endT d : Int) : Option (List Int) :=
  slotLoop busyPeriods endT d (defaultSlotFuel start endT) start

/-- Client.FindCommonFreeTime (multical file, lines 145-201): the busy
periods of all queried calendars are concatenated into allBusyPeriods
and the same enumeration loop runs once against the union. -/
def FindCommonFreeTime (allBusyPeriods : List (Int × Int)) (start endT d : Int) :
    Option (List Int) :=
  slotLoop allBusyPeriods endT d (defaultSlotFuel start endT) start

/-! ## Bulk operation executors (batch file of pkg/calendar) -/

/-- struct BatchResult. The created/updated event payload is modelled by
its ID string. -/
structure BatchResult where
  success : Bool
  index : Nat
  eventID : String
  event : Option String
  error : Option GoError
deriving DecidableEq, Repr

/-- The per-item error coercion of the batch executors: a non-AppError
cause is wrapped into ErrAPIError with the given details. -/
def coerceToAppError (fallbackDetails : String) (e : GoError) : GoError :=
  match e with
  | .appError d => .appError d
  | .appErrorW d w => .appErrorW d w
  | e => .appErrorW (withDetails ErrAPIError fallbackDetails) e

/-- The BatchResult a BatchCreateEvents goroutine stores for item
index, given the outcome of c.CreateEvent for that item. -/
def createResult (index : Nat) (outcome : Except GoError String) : BatchResult :=
  match outcome with
  | .error err =>
      { success := false, index := index, eventID := "", event := none,
        error := some (coerceToAppError
          ("failed to create event at index " ++ toString index) err) }
  | .ok eid =>
      { success := true, index := index, eventID := eid, event := some eid, error := none }

/-- The BatchResult a BatchUpdateEvents goroutine appends for the item
assigned index idx and event ID id. -/
def updateResult (idx : Nat) (id : String) (outcome : Except GoError String) : BatchResult :=
  match outcome with
  | .error err =>
      { success := false, index := idx, eventID := id, event := none,
        error := some (coerceToAppError ("failed to update event " ++ id) err) }
  | .ok eid =>
      { success := true, index := idx, eventID := id, event := some eid, error := none }

/-- The BatchResult a BatchDeleteEvents goroutine stores for item
index and event ID id, given the error (none = nil) of c.DeleteEvent. -/
def deleteResult (index : Nat) (id : String) (outcome : Option GoError) : BatchResult :=
  match outcome with
  | some err =>
      { success := false, index := index, eventID := id, event := none,
        error := some (coerceToAppError ("failed to delete event " ++ id) err) }
  | none =>
      { success := true, index := index, eventID := id, event := none, error := none }

/-- The mutex-protected write phase of BatchCreateEvents /
BatchDeleteEvents: each goroutine writes results[index]; order lists
the item indices in the order the goroutines take the mutex. -/
def writeSlots (res : Nat → BatchResult) : List Nat → List (Option BatchResult) →
    List (Option BatchResult)
  | [], acc => acc
  | i :: rest, acc => writeSlots res rest (acc.set i (some (res i)))

/-- The mutex-protected append phase of BatchUpdateEvents: each
goroutine appends its result; order lists the assigned item indices in
the order the goroutines take the mutex. -/
def appendSlots (res : Nat → BatchResult) : List Nat → List BatchResult → List BatchResult
  | [], acc => acc
  | i :: rest, acc => appendSlots res rest (acc ++ [res i])

/-- The shared concurrency default of the three batch executors: if
params.MaxConcurrent <= 0 it becomes 5; the counting semaphore is then
created with exactly that capacity (no further bound is applied). -/
def semaphoreCapacity (maxConcurrent : Int) : Int :=
  if maxConcurrent ≤ 0 then 5 else maxConcurrent

/-- The final error check shared by the batch executors: with
ContinueOnError unset, any unsuccessful result makes the call also
return an aggregate error (alongside the results). -/
def anyFailed (results : List (Option BatchResult)) : Bool :=
  results.any fun r =>
    match r with
    | some b => !b.success
    | none => false

def anyFailedL (results : List BatchResult) : Bool :=
  results.any fun b => !b.success

/-- The value pair (results slice, error) returned by a batch executor,
together with the capacity the semaphore channel was created with. -/
structure BatchRun where
  results : List (Option BatchResult)
  aggregateError : Option GoError
  semCapacity : Int
deriving Repr

structure BatchAppendRun where
  results : List BatchResult
  aggregateError : Option GoError
  semCapacity : Int
deriving Repr

/-- Client.BatchCreateEvents (batch file, lines 168-234). outcome i is
the result of c.CreateEvent on the i-th item (the created event modelled
by its ID); order is the completion order of the goroutines. -/
def BatchCreateEvents (outcome : Nat → Except GoError String) (numEvents : Nat)
    (continueOnError : Bool) (maxConcurrent : Int) (order : List Nat) :
    Except GoError BatchRun :=
  if numEvents = 0 then
    .error (ErrInvalidInput "events" "no events provided")
  else
    let semCap := semaphoreCapacity maxConcurrent
    let results := writeSlots (fun i => createResult i (outcome i)) order
      (List.replicate numEvents none)
    let aggErr :=
      if !continueOnError && anyFailed results then
        some (.appError (withDetails ErrAPIError
          "batch create failed: one or more events failed to create"))
      else none
    .ok { results := results, aggregateError := aggErr, semCapacity := semCap }

/-- Client.BatchUpdateEvents (batch file, lines 244-313). updates is the
(eventID, params) sequence in the order Go iterates the Updates map
(itself non-deterministic); the i-th entry is assigned index i. Each
goroutine appends its result in completion order. -/
def BatchUpdateEvents (outcome : Nat → Except GoError String) (updates : List String)
    (continueOnError : Bool) (maxConcurrent : Int) (order : List Nat) :
    Except GoError BatchAppendRun :=
  if updates.length = 0 then
    .error (ErrInvalidInput "updates" "no updates provided")
  else
    let semCap := semaphoreCapacity maxConcurrent
    let results := appendSlots (fun i => updateResult i (updates.getD i "") (outcome i)) order []
    let aggErr :=
      if !continueOnError && anyFailedL results then
        some (.appError (withDetails ErrAPIError
          "batch update failed: one or more events failed to update"))
      else none
    .ok { results := results, aggregateError := aggErr, semCapacity := semCap }

/-- Client.BatchDeleteEvents (batch file, lines 323-389). -/
def BatchDeleteEvents (outcome : Nat → Option GoError) (eventIDs : List String)
    (continueOnError : Bool) (maxConcurrent : Int) (order : List Nat) :
    Except GoError BatchRun :=
  if eventIDs.length = 0 then
    .error (ErrInvalidInput "eventIds" "no event IDs provided")
  else
    let semCap := semaphoreCapacity maxConcurrent
    let results := writeSlots (fun i => deleteResult i (eventIDs.getD i "") (outcome i)) order
      (List.replicate eventIDs.length none)
    let aggErr :=
      if !continueOnError && anyFailed results then
        some (.appError (withDetails ErrAPIError
          "batch delete failed: one or more events failed to delete"))
      else none
    .ok { results := results, aggregateError := aggErr, semCapacity := semCap }

/-! ## Multi-calendar aggregator (multical file of pkg/calendar) -/

/-- An event of a multi-calendar listing, reduced to the start fields
the aggregator inspects when sorting. -/
structure EventM where
  startDateTime : String
  startDate : String
deriving DecidableEq, Repr

/-- struct MultiCalendarListResult. -/
structure MultiCalendarListResult where
  events : List (String × EventM)
  totalCount : Nat
  byCalendar : List (String × Nat)
deriving DecidableEq, Repr

/-- Overwrite-or-append update of an association list, modelling a Go
map insert. -/
def setAssoc (key : String) (val : Nat) : List (String × Nat) → List (String × Nat)
  | [] => [(key, val)]
  | (k, v) :: rest => if k == key then (k, val) :: rest else (k, v) :: setAssoc key val rest

/-- The sort key of sortMultiCalendarEvents: the start DateTime, or the
all-day Date when that is set. -/
def eventSortKey (e : EventM) : String :=
  if e.startDate != "" then e.startDate else e.startDateTime

def dummyEventEntry : String × EventM := ("", { startDateTime := "", startDate := "" })

/-- One comparison/swap of the double loop of sortMultiCalendarEvents:
swap positions i and j when key(events[i]) > key(events[j]). -/
def swapIfGt (l : List (String × EventM)) (i j : Nat) : List (String × EventM) :=
  let ei := l.getD i dummyEventEntry
  let ej := l.getD j dummyEventEntry
  if eventSortKey ej.2 < eventSortKey ei.2 then (l.set i ej).set j ei else l

/-- The inner loop (j from i+1 to len-1) of sortMultiCalendarEvents. -/
def sortInner (i : Nat) : Nat → Nat → List (String × EventM) → List (String × EventM)
  | _, 0, l => l
  | j, fuel + 1, l => sortInner i (j + 1) fuel (swapIfGt l i j)

/-- The outer loop (i from 0 to len-1) of sortMultiCalendarEvents. -/
def sortOuter : Nat → Nat → List (String × EventM) → List (String × EventM)
  | _, 0, l => l
  | i, fuel + 1, l => sortOuter (i + 1) fuel (sortInner i (i + 1) (l.length - (i + 1)) l)

/-- sortMultiCalendarEvents (multical file, lines 216-235): the in-place
exchange sort ascending by start key. -/
def sortMultiCalendarEvents (events : List (String × EventM)) : List (String × EventM) :=
  sortOuter 0 events.length events

/-- The shared mutable state of the ListEventsMultiCalendar fan-out:
the merged events, the per-calendar counts, and the errors sent on
errorsChan in completion order. -/
structure MultiListState where
  events : List (String × EventM)
  byCalendar : List (String × Nat)
  errs : List GoError
deriving Repr

/-- One goroutine of ListEventsMultiCalendar, for the calendar at
position i of calendarIDs: on fetch error it sends
fmt.Errorf("calendar %s: %w", id, err) on errorsChan and returns;
on success it appends the events and records the count under the
mutex. -/
def multiListStep (fetch : String → Except GoError (List EventM)) (calendarIDs : List String)
    (st : MultiListState) (i : Nat) : MultiListState :=
  let id := calendarIDs.getD i ""
  match fetch id with
  | .error err =>
      { st with errs := st.errs ++ [.wrapf ("calendar " ++ id ++ ": " ++ goErrorString err) err] }
  | .ok items =>
      { st with
        events := st.events ++ items.map (fun e => (id, e)),
        byCalendar := setAssoc id items.length st.byCalendar }

/-- The fan-out of ListEventsMultiCalendar: the goroutines' critical
sections execute in the given completion order. -/
def multiListFold (fetch : String → Except GoError (List EventM)) (calendarIDs : List String) :
    List Nat → MultiListState → MultiListState
  | [], st => st
  | i :: rest, st => multiListFold fetch calendarIDs rest (multiListStep fetch calendarIDs st i)

/-- Client.ListEventsMultiCalendar (multical file, lines 27-96). fetch
gives the outcome of the per-calendar Events.List call; order is the
completion order of the goroutines (indices into calendarIDs). After the
join, any recorded error makes the whole call fail with one wrapped
error (the first one sent on the channel), discarding the merged events;
otherwise the merged events are counted and sorted by start key. The
service handle is modelled as initialized. -/
def ListEventsMultiCalendar (fetch : String → Except GoError (List EventM))
    (calendarIDs : List String) (order : List Nat) : Except GoError MultiCalendarListResult :=
  if calendarIDs.length = 0 then
    .error (ErrInvalidInput "calendarIds" "at least one calendar ID required")
  else
    let st := multiListFold fetch calendarIDs order
      { events := [], byCalendar := [], errs := [] }
    match st.errs with
    | e :: _ =>
        .error (.appError (withDetails ErrAPIError
          ("multi-calendar query failed: " ++ goErrorString e)))
    | [] =>
        .ok { events := sortMultiCalendarEvents st.events,
              totalCount := st.events.length,
              byCalendar := st.byCalendar }

/-! ## Natural-language date parser (attendees/natural-language file)

Civil date-times are modelled explicitly; a time.Location is modelled
as a fixed UTC offset (sufficient for the windows exercised here, which
cross no DST transition). The ambient clock read by the Go code via
time.Now() appears as an explicit sysNow parameter of the embedding:
the Go signature ParseNaturalLanguageDate(input, timezone) does NOT
receive it from the caller. sysNow is the clock's civil reading in the
effective timezone (time.Now().In(tz)). -/

structure DateTime where
  year : Int
  month : Int
  day : Int
  hour : Int
  minute : Int
  second : Int
deriving DecidableEq, Repr

/-- A time.Location, as a fixed offset from UTC in minutes. -/
structure Location where
  name : String
  offsetMinutes : Int
deriving DecidableEq, Repr

def isLeapYear (y : Int) : Bool :=
  (y % 4 == 0 && y % 100 != 0) || y % 400 == 0

def daysInMonth (y m : Int) : Int :=
  if m == 2 then (if isLeapYear y then 29 else 28)
  else if m == 4 || m == 6 || m == 9 || m == 11 then 30
  else 31

/-- Month normalization of Go time.Date: bring the (1-based) month into
1..12, carrying whole years. -/
def normMonth (y m : Int) : Int × Int :=
  let m0 := m - 1
  (y + Int.ediv m0 12, Int.emod m0 12 + 1)

/-- Day normalization of Go time.Date: walk the day into the valid range
of its month. Fuel bounds the walk (each step moves at least 28 days). -/
def normDay : Nat → Int → Int → Int → Int × Int × Int
  | 0, y, m, d => (y, m, d)
  | fuel + 1, y, m, d =>
    if d < 1 then
      let y2 := if m == 1 then y - 1 else y
      let m2 := if m == 1 then 12 else m - 1
      normDay fuel y2 m2 (d + daysInMonth y2 m2)
    else if d > daysInMonth y m then
      let y2 := if m == 12 then y + 1 else y
      let m2 := if m == 12 then 1 else m + 1
      normDay fuel y2 m2 (d - daysInMonth y m)
    else (y, m, d)

/-- Go time.Date(y, m, d, hh, mm, ss, 0, loc): full normalization of the
civil fields (the location only tags the value and is kept alongside). -/
def mkDate (y m d hh mm ss : Int) : DateTime :=
  let mm1 := mm + Int.ediv ss 60
  let ss1 := Int.emod ss 60
  let hh1 := hh + Int.ediv mm1 60
  let mm2 := Int.emod mm1 60
  let dExtra := Int.ediv hh1 24
  let hh2 := Int.emod hh1 24
  let (y1, m1) := normMonth y m
  let (y2, m2, d2) := normDay ((d + dExtra).natAbs + 64) y1 m1 (d + dExtra)
  { year := y2, month := m2, day := d2, hour := hh2, minute := mm2, second := ss1 }

/-- Go t.AddDate(years, months, days). -/
def addDate (dt : DateTime) (years months days : Int) : DateTime :=
  mkDate (dt.year + years) (dt.month + months) (dt.day + days) dt.hour dt.minute dt.second

/-- Go t.Add(d) for a whole number of minutes, on the civil reading in a
fixed-offset location. -/
def addMinutes (dt : DateTime) (k : Int) : DateTime :=
  mkDate dt.year dt.month dt.day dt.hour (dt.minute + k) dt.second

/-- Go t.Weekday() (Sunday = 0), by Sakamoto's method on the civil
date. -/
def weekday (dt : DateTime) : Int :=
  let t : List Int := [0, 3, 2, 5, 0, 3, 5, 1, 4, 6, 2, 4]
  let y := if dt.month < 3 then dt.year - 1 else dt.year
  (y + Int.ediv y 4 - Int.ediv y 100 + Int.ediv y 400
    + t.getD (dt.month - 1).toNat 0 + dt.day) % 7

def digitChar (n : Nat) : Char := Char.ofNat (48 + n % 10)

def pad2 (n : Int) : String :=
  String.mk [digitChar ((n.toNat / 10) % 10), digitChar (n.toNat % 10)]

def pad4 (n : Int) : String :=
  String.mk [digitChar ((n.toNat / 1000) % 10), digitChar ((n.toNat / 100) % 10),
    digitChar ((n.toNat / 10) % 10), digitChar (n.toNat % 10)]

/-- The numeric-offset part of Go's RFC3339 layout (Z07:00): "Z" for
UTC, otherwise a signed hh:mm offset. -/
def formatOffset (offsetMinutes : Int) : String :=
  if offsetMinutes == 0 then "Z"
  else
    let sign := if offsetMinutes < 0 then "-" else "+"
    let a := offsetMinutes.natAbs
    sign ++ pad2 (Int.ofNat (a / 60)) ++ ":" ++ pad2 (Int.ofNat (a % 60))

/-- Go t.Format(time.RFC3339) of a civil reading in the location tz. -/
def formatRFC3339 (dt : DateTime) (tz : Location) : String :=
  pad4 dt.year ++ "-" ++ pad2 dt.month ++ "-" ++ pad2 dt.day ++ "T"
    ++ pad2 dt.hour ++ ":" ++ pad2 dt.minute ++ ":" ++ pad2 dt.second
    ++ formatOffset tz.offsetMinutes

/-! String helpers, modelling the ASCII fragment of strings.ToLower,
strings.TrimSpace and whitespace splitting actually exercised by the
parser's closed grammar. -/

def toLowerChar (c : Char) : Char :=
  if 65 ≤ c.toNat && c.toNat ≤ 90 then Char.ofNat (c.toNat + 32) else c

def toLowerStr (s : String) : String := String.mk (s.data.map toLowerChar)

def isSpaceChar (c : Char) : Bool :=
  c == ' ' || c == '\t' || c == '\n' || c == '\r'

def trimStr (s : String) : String :=
  String.mk (((s.data.dropWhile isSpaceChar).reverse.dropWhile isSpaceChar).reverse)

def wordsAux : List Char → List Char → List String
  | [], acc => if acc.isEmpty then [] else [String.mk acc.reverse]
  | c :: rest, acc =>
    if isSpaceChar c then
      if acc.isEmpty then wordsAux rest []
      else String.mk acc.reverse :: wordsAux rest []
    else wordsAux rest (c :: acc)

/-- Split into whitespace-separated words. -/
def splitWords (s : String) : List String := wordsAux s.data []

def joinWords : List String → String
  | [] => ""
  | [w] => w
  | w :: rest => w ++ " " ++ joinWords rest

def findAtAux (before : List String) : List String → Option (List String × List String)
  | [] => none
  | w :: rest =>
    if w == "at" && !rest.isEmpty then some (before, rest)
    else findAtAux (before ++ [w]) rest

/-- The submatch of the regexp (.*?)\s+at\s+(.+) against the trimmed
input, modelled on its word list: split at the first standalone word
"at" that has at least one word before it (the mandatory \s+) and a
non-empty remainder after it. -/
def splitAtKeyword : List String → Option (List String × List String)
  | [] => none
  | w :: rest => findAtAux [w] rest

/-- If the character list starts with the given pattern, the remainder. -/
def stripPre : List Char → List Char → Option (List Char)
  | [], rest => some rest
  | p :: ps, c :: cs => if p == c then stripPre ps cs else none
  | _ :: _, [] => none

def digitVal (c : Char) : Option Int :=
  if c.isDigit then some (Int.ofNat (c.toNat - 48)) else none

/-- Go time.Parse number scan for a non-padded layout ("3"/"15"): one or
two digits. -/
def getnum2 : List Char → Option (Int × List Char)
  | [] => none
  | c :: rest =>
    match digitVal c with
    | none => none
    | some d1 =>
      match rest with
      | c2 :: rest2 =>
        match digitVal c2 with
        | none => some (d1, rest)
        | some d2 => some (d1 * 10 + d2, rest2)
      | [] => some (d1, [])

/-- Go time.Parse number scan for a zero-padded layout ("04"/"05"):
exactly two digits. -/
def getnumFixed2 : List Char → Option (Int × List Char)
  | c1 :: c2 :: rest =>
    match digitVal c1, digitVal c2 with
    | some d1, some d2 => some (d1 * 10 + d2, rest)
    | _, _ => none
  | _ => none

/-- The lowercase meridiem of the "pm" layout element: true for pm. -/
def parseAmPm : List Char → Option (Bool × List Char)
  | 'p' :: 'm' :: rest => some (true, rest)
  | 'a' :: 'm' :: rest => some (false, rest)
  | _ => none

/-- Apply a parsed meridiem to a 12-hour value, as in Go time.Parse. -/
def applyAmPm (isPM : Bool) (h : Int) : Int :=
  if isPM then (if h < 12 then h + 12 else h)
  else (if h == 12 then 0 else h)

/-- time.Parse with layout "3pm". -/
def tryFormatHpm (cs : List Char) : Option (Int × Int) :=
  match getnum2 cs with
  | none => none
  | some (h, rest) =>
    if h > 12 then none
    else
      match parseAmPm rest with
      | some (isPM, []) =>
        let h2 := applyAmPm isPM h
        if h2 < 24 then some (h2, 0) else none
      | _ => none

/-- time.Parse with layout "3:04pm". -/
def tryFormatHMpm (cs : List Char) : Option (Int × Int) :=
  match getnum2 cs with
  | none => none
  | some (h, rest) =>
    if h > 12 then none
    else
      match rest with
      | ':' :: rest1 =>
        match getnumFixed2 rest1 with
        | none => none
        | some (mi, rest2) =>
          if mi ≥ 60 then none
          else
            match parseAmPm rest2 with
            | some (isPM, []) =>
              let h2 := applyAmPm isPM h
              if h2 < 24 then some (h2, mi) else none
            | _ => none
      | _ => none

/-- time.Parse with layout "15:04". -/
def tryFormatHM24 (cs : List Char) : Option (Int × Int) :=
  match getnum2 cs with
  | none => none
  | some (h, rest) =>
    if h ≥ 24 then none
    else
      match rest with
      | ':' :: rest1 =>
        match getnumFixed2 rest1 with
        | some (mi, []) => if mi ≥ 60 then none else some (h, mi)
        | _ => none
      | _ => none

/-- time.Parse with layout "15:04:05". -/
def tryFormatHMS24 (cs : List Char) : Option (Int × Int) :=
  match getnum2 cs with
  | none => none
  | some (h, rest) =>
    if h ≥ 24 then none
    else
      match rest with
      | ':' :: rest1 =>
        match getnumFixed2 rest1 with
        | none => none
        | some (mi, rest2) =>
          if mi ≥ 60 then none
          else
            match rest2 with
            | ':' :: rest3 =>
              match getnumFixed2 rest3 with
              | some (s, []) => if s ≥ 60 then none else some (h, mi)
              | _ => none
            | _ => none
      | _ => none

/-- parseTimeOfDay: try the layouts "3pm", "3:04pm", "15:04",
"15:04:05" in order; the code keeps only Hour() and Minute() of the
parsed value (the tz argument is unused, as in the source). -/
def parseTimeOfDay (timeStr : String) (tz : Location) : Except String (Int × Int) :=
  let s := toLowerStr (trimStr timeStr)
  let cs := s.data
  match tryFormatHpm cs with
  | some t => .ok t
  | none =>
    match tryFormatHMpm cs with
    | some t => .ok t
    | none =>
      match tryFormatHM24 cs with
      | some t => .ok t
      | none =>
        match tryFormatHMS24 cs with
        | some t => .ok t
        | none => .error ("unable to parse time: " ++ s)

/-- parseRelativeDate: handles "now", "today", "tomorrow", "yesterday",
each optionally followed by "at <time>". -/
def parseRelativeDate (input : String) (now : DateTime) (tz : Location) :
    Except String String :=
  let ws := splitWords input
  let (dateStr, timeStr) :=
    match splitAtKeyword ws with
    | some (dws, tws) => (joinWords dws, joinWords tws)
    | none => (input, "")
  if trimStr dateStr == "now" then .ok (formatRFC3339 now tz)
  else
    let off : Option Int :=
      match trimStr dateStr with
      | "today" => some 0
      | "tomorrow" => some 1
      | "yesterday" => some (-1)
      | _ => none
    match off with
    | none => .error "not a relative date"
    | some o =>
      let targetDate := mkDate now.year now.month (now.day + o) 0 0 0
      if timeStr != "" then
        match parseTimeOfDay timeStr tz with
        | .error e => .error e
        | .ok t =>
            .ok (formatRFC3339 (mkDate targetDate.year targetDate.month targetDate.day
              t.1 t.2 0) tz)
      else .ok (formatRFC3339 targetDate tz)

def strToNat (s : String) : Nat :=
  s.data.foldl (fun acc c => acc * 10 + (c.toNat - 48)) 0

/-- parseTimeOffset: the anchored pattern "in <digits> <unit>". The
result keeps the location carried inside the Go time.Time value, passed
here as tz for formatting. -/
def parseTimeOffset (input : String) (now : DateTime) (tz : Location) :
    Except String String :=
  match splitWords input with
  | [w0, numStr, unit] =>
    if w0 == "in" && numStr.data.all Char.isDigit then
      let amount : Int := Int.ofNat (strToNat numStr)
      if unit == "minute" || unit == "minutes" then
        .ok (formatRFC3339 (addMinutes now amount) tz)
      else if unit == "hour" || unit == "hours" then
        .ok (formatRFC3339 (addMinutes now (amount * 60)) tz)
      else if unit == "day" || unit == "days" then
        .ok (formatRFC3339 (addDate now 0 0 amount) tz)
      else if unit == "week" || unit == "weeks" then
        .ok (formatRFC3339 (addDate now 0 0 (amount * 7)) tz)
      else if unit == "month" || unit == "months" then
        .ok (formatRFC3339 (addDate now 0 amount 0) tz)
      else .error "not a time offset"
    else .error "not a time offset"
  | _ => .error "not a time offset"

/-- The dayMap of parseDayOfWeek, in Go time.Weekday numbering. -/
def dayMapLookup (s : String) : Option Int :=
  if s == "sunday" || s == "sun" then some 0
  else if s == "monday" || s == "mon" then some 1
  else if s == "tuesday" || s == "tue" then some 2
  else if s == "wednesday" || s == "wed" then some 3
  else if s == "thursday" || s == "thu" then some 4
  else if s == "friday" || s == "fri" then some 5
  else if s == "saturday" || s == "sat" then some 6
  else none

/-- parseDayOfWeek: "<modifier> <weekday> [at <time>]" with modifiers
next (default), this, last. -/
def parseDayOfWeek (input : String) (now : DateTime) (tz : Location) :
    Except String String :=
  let ws := splitWords input
  let (dateStr, timeStr) :=
    match splitAtKeyword ws with
    | some (dws, tws) => (joinWords dws, joinWords tws)
    | none => (input, "")
  let (modifier, dayStr) :=
    match stripPre "next ".data dateStr.data with
    | some rest => ("next", String.mk rest)
    | none =>
      match stripPre "this ".data dateStr.data with
      | some rest => ("this", String.mk rest)
      | none =>
        match stripPre "last ".data dateStr.data with
        | some rest => ("last", String.mk rest)
        | none => ("next", dateStr)
  match dayMapLookup (toLowerStr dayStr) with
  | none => .error "not a day of week"
  | some targetWeekday =>
    let currentWeekday := weekday now
    let targetDate0 :=
      if modifier == "next" then
        let daysUntil := targetWeekday - currentWeekday
        let daysUntil := if daysUntil ≤ 0 then daysUntil + 7 else daysUntil
        addDate now 0 0 daysUntil
      else if modifier == "this" then
        let daysUntil := targetWeekday - currentWeekday
        let daysUntil := if daysUntil < 0 then daysUntil + 7 else daysUntil
        addDate now 0 0 daysUntil
      else
        let daysAgo := currentWeekday - targetWeekday
        let daysAgo := if daysAgo ≤ 0 then daysAgo + 7 else daysAgo
        addDate now 0 0 (-daysAgo)
    let targetDate := mkDate targetDate0.year targetDate0.month targetDate0.day 0 0 0
    if timeStr != "" then
      match parseTimeOfDay timeStr tz with
      | .error e => .error e
      | .ok t =>
          .ok (formatRFC3339 (mkDate targetDate.year targetDate.month targetDate.day
            t.1 t.2 0) tz)
    else .ok (formatRFC3339 targetDate tz)

/-- parseSpecificDateTime: not implemented in the source; always an
error. -/
def parseSpecificDateTime (input : String) (now : DateTime) (tz : Location) :
    Except String String :=
  .error "specific date/time parsing not implemented"

/-- ParseNaturalLanguageDate (natural-language file, lines 420-449).
The Go signature is (input, timezone); sysNow models the ambient clock
the function reads itself via time.Now() (its civil reading in the
effective timezone), and localTz models the process-global time.Local
used when timezone is nil. The four matchers run in fixed order; the
first success wins. -/
def ParseNaturalLanguageDate (sysNow : DateTime) (localTz : Location) (input : String)
    (timezone : Option Location) : Except String String :=
  let tz := match timezone with
    | some z => z
    | none => localTz
  let inp := toLowerStr (trimStr input)
  let now := sysNow
  match parseRelativeDate inp now tz with
  | .ok parsed => .ok parsed
  | .error _ =>
    match parseTimeOffset inp now tz with
    | .ok parsed => .ok parsed
    | .error _ =>
      match parseDayOfWeek inp now tz with
      | .ok parsed => .ok parsed
      | .error _ =>
        match parseSpecificDateTime inp now tz with
        | .ok parsed => .ok parsed
        | .error _ => .error ("unable to parse natural language date: " ++ inp)

/-! ## Result-extraction helpers used by the theorems -/

def batchResultsOf : Except GoError BatchRun → Option (List (Option BatchResult))
  | .ok run => some run.results
  | .error _ => none

def batchRunIndices : Except GoError BatchRun → Option (List (Option Nat))
  | .ok run => some (run.results.map (Option.map BatchResult.index))
  | .error _ => none

def batchAppendIndices : Except GoError BatchAppendRun → Option (List Nat)
  | .ok run => some (run.results.map BatchResult.index)
  | .error _ => none

def getSemCapacity : Except GoError BatchRun → Option Int
  | .ok run => some run.semCapacity
  | .error _ => none

def isErrorResult : Except GoError MultiCalendarListResult → Bool
  | .ok _ => false
  | .error _ => true

/-! ## Lemmas about the retry loop -/

theorem retryLoop_all_retryable (fn : Nat → Option GoError) (err : Nat → GoError)
    (hfn : ∀ k, fn k = some (err k)) (hretry : ∀ k, isRetryable (err k) = true) :
    ∀ (remaining attempt : Nat),
      retryLoop fn remaining attempt = .failure (err (attempt + remaining)) (attempt + remaining + 1) := by
  intro remaining
  induction remaining with
  | zero =>
    intro attempt
    simp [retryLoop, hfn attempt]
  | succ r ih =>
    intro attempt
    simp only [retryLoop, hfn attempt, hretry attempt, if_true]
    rw [ih (attempt + 1)]
    have e1 : attempt + 1 + r = attempt + (r + 1) := by omega
    rw [e1]

/-- If the attempts attempt..attempt+k-1 all fail retryably and attempt
attempt+k fails with a non-retryable error within the loop budget, the
loop stops right there: fn was invoked attempt+k+1 times in total. -/
theorem retryLoop_nonretryable_at (fn : Nat → Option GoError) (e : GoError) :
    ∀ (k remaining attempt : Nat), k ≤ remaining →
      (∀ i, i < k → ∃ ei, fn (attempt + i) = some ei ∧ isRetryable ei = true) →
      fn (attempt + k) = some e → isRetryable e = false →
      retryLoop fn remaining attempt = .failure e (attempt + k + 1) := by
  intro k
  induction k with
  | zero =>
    intro remaining attempt hk hfail hke hnr
    have h0 : fn attempt = some e := by simpa using hke
    cases remaining with
    | zero => simp [retryLoop, h0]
    | succ r => simp [retryLoop, h0, hnr]
  | succ j ih =>
    intro remaining attempt hk hfail hke hnr
    cases remaining with
    | zero => omega
    | succ r =>
      obtain ⟨e0, he0, hr0⟩ := hfail 0 (by omega)
      have he0' : fn attempt = some e0 := by simpa using he0
      have hfail' : ∀ i, i < j → ∃ ei, fn (attempt + 1 + i) = some ei ∧ isRetryable ei = true := by
        intro i hi
        obtain ⟨ei, hei, hri⟩ := hfail (i + 1) (by omega)
        refine ⟨ei, ?_, hri⟩
        have harith : attempt + (i + 1) = attempt + 1 + i := by omega
        rw [harith] at hei
        exact hei
      have hke' : fn (attempt + 1 + j) = some e := by
        have harith : attempt + (j + 1) = attempt + 1 + j := by omega
        rw [harith] at hke
        exact hke
      have harith2 : attempt + (j + 1) + 1 = attempt + 1 + j + 1 := by omega
      simp only [retryLoop, he0', hr0, if_true]
      rw [harith2]
      exact ih r (attempt + 1) (by omega) hfail' hke' hnr

end GcalCli

namespace GcalCli

/-- C1 counterexample: with the default MaxRetries = 3 and a function
failing with a retryable error (HTTP 500) on every invocation,
withRetry invokes the function 4 times, not 3 as the claim states for
the default configuration. -/
theorem C1_default_attempt_count_cex :
    (withRetry defaultMaxRetries "list events"
      (fun _ => some (GoError.apiError 500 "server error"))).2 = 4 ∧ (4 : Nat) ≠ 3 := by
  constructor
  · decide
  · decide

/-- C1 (amended): for every MaxRetries and every function that fails
with a retryable error kind on every invocation, withRetry terminates
after invoking the function exactly MaxRetries + 1 times (4 in the
default configuration), never more, and surfaces an ErrAPIError value
wrapping the last classified error; it never hangs. -/
theorem C1_retry_exhaustion (maxRetries : Nat) (operation : String)
    (fn : Nat → Option GoError) (err : Nat → GoError)
    (hfn : ∀ k, fn k = some (err k)) (hretry : ∀ k, isRetryable (err k) = true) :
    withRetry maxRetries operation fn =
      (some (wrapFinalError operation maxRetries (err maxRetries)), maxRetries + 1) := by
  rw [withRetry, retryLoop_all_retryable fn err hfn hretry maxRetries 0]
  simp

/-- C1 witness: the amended statement at MaxRetries = 3 and the constant
HTTP 500 failure. -/
theorem C1_retry_exhaustion_witness :
    isRetryable (GoError.apiError 500 "server error") = true ∧
      withRetry 3 "list events" (fun _ => some (GoError.apiError 500 "server error")) =
        (some (wrapFinalError "list events" 3 (GoError.apiError 500 "server error")), 4) :=
  ⟨by decide, C1_retry_exhaustion 3 "list events"
    (fun _ => some (GoError.apiError 500 "server error"))
    (fun _ => GoError.apiError 500 "server error") (fun _ => rfl) (fun _ => rfl)⟩

/-- C2 counterexample: with a function failing with the non-retryable
HTTP 404 on its first invocation, withRetry does stop after one attempt,
but the returned error is not the classified error itself: it is an
ErrAPIError wrapper (claiming "failed after 4 attempts"), so the error
is not propagated untouched. -/
theorem C2_wrapped_error_cex :
    (withRetry defaultMaxRetries "get event"
        (fun _ => some (GoError.apiError 404 "not found"))).1 ≠
      some (GoError.apiError 404 "not found") ∧
    (withRetry defaultMaxRetries "get event"
        (fun _ => some (GoError.apiError 404 "not found"))).2 = 1 := by
  constructor
  · decide
  · decide

/-- C2 (amended): whenever an attempt inside the retry executor fails
with a non-retryable error kind — attempt k, every earlier attempt
having failed retryably — the executor stops immediately: the function
is invoked exactly k + 1 times, no further attempt and no further
backoff wait happens, but the error returned to the caller is an
ErrAPIError wrapping that classified error (with an attempt-count
detail text that always reads MaxRetries + 1), not the classified
error propagated untouched. -/
theorem C2_nonretryable_stops_wrapped (maxRetries : Nat) (operation : String)
    (fn : Nat → Option GoError) (k : Nat) (e : GoError)
    (hk : k ≤ maxRetries)
    (hfail : ∀ i, i < k → ∃ ei, fn i = some ei ∧ isRetryable ei = true)
    (hke : fn k = some e) (hnr : isRetryable e = false) :
    withRetry maxRetries operation fn =
      (some (wrapFinalError operation maxRetries e), k + 1) := by
  have h := retryLoop_nonretryable_at fn e k maxRetries 0 hk
    (by intro i hi; simpa using hfail i hi) (by simpa using hke) hnr
  rw [withRetry, h]
  simp

/-- When the stride is positive, the slot loop finishes within any fuel
bound exceeding the window width. -/
theorem slotLoop_terminates (busy : List (Int × Int)) (endT d : Int) (hd : 0 < d) :
    ∀ (fuel : Nat) (current : Int), (endT - current).toNat < fuel →
      (slotLoop busy endT d fuel current).isSome = true := by
  intro fuel
  induction fuel with
  | zero => intro current h; omega
  | succ fuel ih =>
    intro current h
    by_cases hc : current + d ≤ endT
    · have hrec := ih (current + d) (by omega)
      obtain ⟨r, hr⟩ := Option.isSome_iff_exists.mp hrec
      simp [slotLoop, hc, hr]
    · simp [slotLoop, hc]

/-- When the stride is not positive and the first candidate fits the
window, the slot loop never finishes, for any fuel bound. -/
theorem slotLoop_diverges (busy : List (Int × Int)) (endT d : Int) (hd : d ≤ 0) :
    ∀ (fuel : Nat) (current : Int), current + d ≤ endT →
      slotLoop busy endT d fuel current = none := by
  intro fuel
  induction fuel with
  | zero => intro current _; simp [slotLoop]
  | succ fuel ih =>
    intro current h
    have hrec := ih (current + d) (by omega)
    simp [slotLoop, h, hrec]

/-- On an empty busy set the slot loop enumerates exactly the stride
positions that fit the window, in increasing order, with a lower bound
on every emitted slot. -/
theorem slotLoop_empty_spec (endT d : Int) (hd : 0 < d) :
    ∀ (fuel : Nat) (current : Int), (endT - current).toNat < fuel →
      ∃ r, slotLoop [] endT d fuel current = some r ∧
        (∀ t : Int, t ∈ r ↔ ∃ k : Nat, t = current + d * (k : Int) ∧ t + d ≤ endT) ∧
        r.Sorted (· < ·) ∧ ∀ t ∈ r, current ≤ t := by
  intro fuel
  induction fuel with
  | zero => intro current h; omega
  | succ fuel ih =>
    intro current h
    by_cases hc : current + d ≤ endT
    · obtain ⟨r, hr, hmem, hsort, hlb⟩ := ih (current + d) (by omega)
      refine ⟨current :: r, ?_, ?_, ?_, ?_⟩
      · simp [slotLoop, hc, hr]
      · intro t
        constructor
        · intro ht
          rcases List.mem_cons.mp ht with h1 | h2
          · exact ⟨0, by simpa using h1, by rw [h1]; exact hc⟩
          · obtain ⟨k, hk, hle⟩ := (hmem t).mp h2
            exact ⟨k + 1, by push_cast [hk]; ring, hle⟩
        · rintro ⟨k, hk, hle⟩
          cases k with
          | zero =>
            have ht : t = current := by simpa using hk
            rw [ht]
            exact List.mem_cons_self _ _
          | succ j =>
            apply List.mem_cons_of_mem
            apply (hmem t).mpr
            exact ⟨j, by push_cast [hk]; ring, hle⟩
      · rw [List.sorted_cons]
        refine ⟨fun b hb => ?_, hsort⟩
        have := hlb b hb
        omega
      · intro t ht
        rcases List.mem_cons.mp ht with h1 | h2
        · exact le_of_eq h1.symm
        · have := hlb t h2
          omega
    · refine ⟨[], by simp [slotLoop, hc], ?_, List.sorted_nil, by intro t ht; simp at ht⟩
      intro t
      simp only [List.not_mem_nil, false_iff, not_exists]
      rintro k ⟨hk, hle⟩
      have hk0 : (0 : Int) ≤ d * (k : Int) := mul_nonneg hd.le (by positivity)
      rw [hk] at hle
      push_neg at hc
      linarith

/-- C2 witness: the amended statement at MaxRetries = 3 with a
retryable HTTP 500 failure on attempt 0 followed by a non-retryable
HTTP 404 failure on attempt 1 — the executor stops after exactly 2
invocations with the wrapped error. -/
theorem C2_nonretryable_stops_wrapped_witness :
    (1 : Nat) ≤ 3 ∧
      isRetryable (GoError.apiError 500 "server error") = true ∧
      isRetryable (GoError.apiError 404 "not found") = false ∧
      withRetry 3 "get event"
          (fun j => if j = 0 then some (GoError.apiError 500 "server error")
            else some (GoError.apiError 404 "not found")) =
        (some (wrapFinalError "get event" 3 (GoError.apiError 404 "not found")), 2) :=
  ⟨by decide, by decide, by decide,
    C2_nonretryable_stops_wrapped 3 "get event"
      (fun j => if j = 0 then some (GoError.apiError 500 "server error")
        else some (GoError.apiError 404 "not found")) 1 (GoError.apiError 404 "not found")
      (by decide)
      (by
        intro i hi
        have h0 : i = 0 := by omega
        subst h0
        exact ⟨GoError.apiError 500 "server error", rfl, rfl⟩)
      rfl rfl⟩

/-- C6: on an empty busy set and a positive slot duration, FindFreeSlots
returns exactly the stride positions start, start + d, start + 2d, ... —
every candidate t with t + d <= end, in increasing order with no gaps —
and the enumeration stops at the first candidate t with t + d > end
(no t beyond that bound is in the result). -/
theorem C6_free_slot_exhaustiveness (start endT d : Int) (hd : 0 < d) :
    ∃ r, FindFreeSlots [] start endT d = some r ∧
      (∀ t : Int, t ∈ r ↔ ∃ k : Nat, t = start + d * (k : Int) ∧ t + d ≤ endT) ∧
      r.Sorted (· < ·) := by
  have hfuel : (endT - start).toNat < defaultSlotFuel start endT := by
    simp [defaultSlotFuel]
  obtain ⟨r, hr, hmem, hsort, _⟩ :=
    slotLoop_empty_spec endT d hd (defaultSlotFuel start endT) start hfuel
  exact ⟨r, hr, hmem, hsort⟩

/-- C6 witness: the empty-busy enumeration over [0, 10) with stride 3. -/
theorem C6_free_slot_exhaustiveness_witness :
    (0 : Int) < 3 ∧
      (∃ r, FindFreeSlots [] 0 10 3 = some r ∧
        (∀ t : Int, t ∈ r ↔ ∃ k : Nat, t = 0 + 3 * (k : Int) ∧ t + 3 ≤ 10) ∧
        r.Sorted (· < ·)) :=
  ⟨by decide, C6_free_slot_exhaustiveness 0 10 3 (by decide)⟩

/-- C7: over busy data returned for the queried window — every returned
interval intersects [start, end) in the half-open sense — if
CheckConflicts reports hasConflict = false then IsBusy over the same
window also returns false. -/
theorem C7_conflict_detection_soundness (busy : List (Int × Int)) (start endT : Int)
    (hwin : ∀ p ∈ busy, p.1 < endT ∧ start < p.2) :
    (CheckConflicts busy start endT).1 = false → IsBusy busy = false := by
  intro hfalse
  cases busy with
  | nil => rfl
  | cons p rest =>
    exfalso
    obtain ⟨h1, h2⟩ := hwin p (List.mem_cons_self p rest)
    simp only [CheckConflicts] at hfalse
    rw [decide_eq_false_iff_not] at hfalse
    apply hfalse
    have hp : p ∈ List.filter (fun q => decide (start < q.2) && decide (endT > q.1))
        (p :: rest) :=
      List.mem_filter.mpr ⟨List.mem_cons_self p rest, by simp [h1, h2]⟩
    exact List.length_pos_of_mem hp

/-- C7 witness: the empty busy set over the window [0, 10). -/
theorem C7_conflict_detection_soundness_witness :
    (CheckConflicts [] 0 10).1 = false ∧ IsBusy [] = false :=
  ⟨by decide, C7_conflict_detection_soundness [] 0 10 (by simp) (by decide)⟩

/-- C10: the slot-enumeration loops of FindFreeSlots and
FindCommonFreeTime terminate whenever slotDuration is strictly positive;
and strict positivity is an unvalidated precondition — for a
non-positive slotDuration whose first candidate fits the window, the
loop runs and never terminates for any iteration bound (no input check
rejects it first). -/
theorem C10_slot_loop_termination :
    (∀ (busy : List (Int × Int)) (start endT d : Int), 0 < d →
      (FindFreeSlots busy start endT d).isSome = true ∧
      (FindCommonFreeTime busy start endT d).isSome = true) ∧
    (∀ (busy : List (Int × Int)) (start endT d : Int), d ≤ 0 → start + d ≤ endT →
      (∀ fuel : Nat, slotLoop busy endT d fuel start = none) ∧
      FindFreeSlots busy start endT d = none ∧
      FindCommonFreeTime busy start endT d = none) := by
  constructor
  · intro busy start endT d hd
    have hfuel : (endT - start).toNat < defaultSlotFuel start endT := by
      simp [defaultSlotFuel]
    exact ⟨slotLoop_terminates busy endT d hd _ start hfuel,
      slotLoop_terminates busy endT d hd _ start hfuel⟩
  · intro busy start endT d hd hfit
    exact ⟨fun fuel => slotLoop_diverges busy endT d hd fuel start hfit,
      slotLoop_diverges busy endT d hd _ start hfit,
      slotLoop_diverges busy endT d hd _ start hfit⟩

/-- C10 witness: termination at stride 2 over [0, 5), divergence at
stride 0 over the same window. -/
theorem C10_slot_loop_termination_witness :
    ((0 : Int) < 2 ∧ (FindFreeSlots [] 0 5 2).isSome = true) ∧
      ((0 : Int) ≤ 0 ∧ (0 : Int) + 0 ≤ 5 ∧ FindFreeSlots [] 0 5 0 = none) :=
  ⟨⟨by decide, (C10_slot_loop_termination.1 [] 0 5 2 (by decide)).1⟩,
    by decide, by decide, (C10_slot_loop_termination.2 [] 0 5 0 (by decide) (by decide)).2.1⟩

/-- writeSlots never changes the length of the results slice. -/
theorem writeSlots_length (res : Nat → BatchResult) :
    ∀ (order : List Nat) (acc : List (Option BatchResult)),
      (writeSlots res order acc).length = acc.length := by
  intro order
  induction order with
  | nil => intro acc; rfl
  | cons j rest ih =>
    intro acc
    rw [writeSlots, ih]
    simp

/-- After the write phase, slot i holds the result of item i when some
goroutine wrote it, and is untouched otherwise. -/
theorem writeSlots_getElem (res : Nat → BatchResult) :
    ∀ (order : List Nat) (acc : List (Option BatchResult)) (i : Nat), i < acc.length →
      (writeSlots res order acc)[i]? =
        if i ∈ order then some (some (res i)) else acc[i]? := by
  intro order
  induction order with
  | nil => intro acc i _; simp [writeSlots]
  | cons j rest ih =>
    intro acc i hi
    rw [writeSlots, ih (acc.set j (some (res j))) i (by simpa using hi)]
    by_cases hmem : i ∈ rest
    · simp [hmem, List.mem_cons]
    · by_cases hij : i = j
      · subst hij
        rw [if_neg hmem, List.getElem?_set_eq hi]
        simp [List.mem_cons]
      · rw [if_neg hmem, List.getElem?_set_ne (fun hc => hij hc.symm)]
        simp [List.mem_cons, hij, hmem]

/-- With a completion order that is a permutation of the item indices,
the write phase fills every slot with its own item's result. -/
theorem writeSlots_perm (res : Nat → BatchResult) (n : Nat) (order : List Nat)
    (hperm : order.Perm (List.range n)) :
    writeSlots res order (List.replicate n none) =
      (List.range n).map (fun i => some (res i)) := by
  apply List.ext_getElem?
  intro i
  by_cases hi : i < n
  · rw [writeSlots_getElem res order (List.replicate n none) i (by simpa using hi)]
    have hmem : i ∈ order := hperm.mem_iff.mpr (List.mem_range.mpr hi)
    rw [if_pos hmem, List.getElem?_map, List.getElem?_range hi]
    rfl
  · have h1 : (writeSlots res order (List.replicate n none)).length ≤ i := by
      rw [writeSlots_length]
      simp
      omega
    have h2 : ((List.range n).map (fun i => some (res i))).length ≤ i := by
      simp
      omega
    rw [List.getElem?_eq_none h1, List.getElem?_eq_none h2]

/-- The append phase of BatchUpdateEvents accumulates the results in
completion order. -/
theorem appendSlots_eq (res : Nat → BatchResult) :
    ∀ (order : List Nat) (acc : List BatchResult),
      appendSlots res order acc = acc ++ order.map res := by
  intro order
  induction order with
  | nil => intro acc; simp [appendSlots]
  | cons j rest ih =>
    intro acc
    rw [appendSlots, ih]
    simp

theorem createResult_index (i : Nat) (o : Except GoError String) :
    (createResult i o).index = i := by
  cases o <;> rfl

theorem deleteResult_index (i : Nat) (id : String) (o : Option GoError) :
    (deleteResult i id o).index = i := by
  cases o <;> rfl

/-- C4 counterexample: BatchUpdateEvents with two items completing in
the order second-then-first returns its results in completion order —
the result at position 0 carries index 1, not 0 — so index stability
does not hold alike for batch update. -/
theorem C4_update_not_index_stable_cex :
    batchAppendIndices (BatchUpdateEvents (fun _ => Except.ok "x") ["e0", "e1"] true 5 [1, 0]) =
      some [1, 0] ∧ (1 : Nat) ≠ 0 := by
  constructor
  · decide
  · decide

/-- C4 (amended): for batch create and batch delete over N items, any
completion order that is a permutation of the item indices yields
exactly N results with the result at position i carrying index i; for
batch update the collection is in completion order (see the
counterexample), each result still carrying its assigned index. -/
theorem C4_bulk_index_stability :
    (∀ (outcome : Nat → Except GoError String) (n : Nat) (continueOnError : Bool)
        (maxConcurrent : Int) (order : List Nat), order.Perm (List.range n) → 0 < n →
      batchRunIndices (BatchCreateEvents outcome n continueOnError maxConcurrent order) =
        some ((List.range n).map fun i => some i)) ∧
    (∀ (outcome : Nat → Option GoError) (eventIDs : List String) (continueOnError : Bool)
        (maxConcurrent : Int) (order : List Nat),
        order.Perm (List.range eventIDs.length) → 0 < eventIDs.length →
      batchRunIndices (BatchDeleteEvents outcome eventIDs continueOnError maxConcurrent order) =
        some ((List.range eventIDs.length).map fun i => some i)) := by
  constructor
  · intro outcome n c mc order hperm hn
    have hne : ¬(n = 0) := by omega
    simp only [BatchCreateEvents, if_neg hne, batchRunIndices]
    rw [writeSlots_perm _ n order hperm]
    simp [List.map_map, Function.comp_def, createResult_index]
  · intro outcome ids c mc order hperm hn
    have hne : ¬(ids.length = 0) := by omega
    simp only [BatchDeleteEvents, if_neg hne, batchRunIndices]
    rw [writeSlots_perm _ ids.length order hperm]
    simp [List.map_map, Function.comp_def, deleteResult_index]

/-- C4 witness: both index-stable executors at two items completing in
reversed order. -/
theorem C4_bulk_index_stability_witness :
    ([1, 0] : List Nat).Perm (List.range 2) ∧
      batchRunIndices (BatchCreateEvents (fun _ => Except.ok "x") 2 true 5 [1, 0]) =
        some ((List.range 2).map fun i => some i) ∧
      batchRunIndices (BatchDeleteEvents (fun _ => none) ["a", "b"] true 5 [1, 0]) =
        some ((List.range 2).map fun i => some i) :=
  ⟨by decide,
    C4_bulk_index_stability.1 (fun _ => Except.ok "x") 2 true 5 [1, 0] (by decide) (by decide),
    C4_bulk_index_stability.2 (fun _ => none) ["a", "b"] true 5 [1, 0] (by decide) (by decide)⟩

/-- C8 counterexample: a BatchCreateEvents call with MaxConcurrent = 11
creates its semaphore with capacity 11, above the claimed hard bound of
10 — no clamp to [1, 10] exists. -/
theorem C8_no_upper_clamp_cex :
    getSemCapacity (BatchCreateEvents (fun _ => Except.ok "x") 1 true 11 [0]) = some 11 ∧
      ¬((11 : Int) ≤ 10) := by
  constructor
  · decide
  · decide

/-- C8 (amended): the bulk executors replace a non-positive
MaxConcurrent by the default 5 and otherwise use the caller's value
as the semaphore capacity unchanged — no upper clamp is applied. -/
theorem C8_concurrency_default_no_clamp :
    (∀ (outcome : Nat → Except GoError String) (n : Nat) (c : Bool) (mc : Int)
        (order : List Nat), 0 < n →
      getSemCapacity (BatchCreateEvents outcome n c mc order) =
        some (if mc ≤ 0 then 5 else mc)) ∧
    (∀ (outcome : Nat → Option GoError) (ids : List String) (c : Bool) (mc : Int)
        (order : List Nat), 0 < ids.length →
      getSemCapacity (BatchDeleteEvents outcome ids c mc order) =
        some (if mc ≤ 0 then 5 else mc)) := by
  constructor
  · intro outcome n c mc order hn
    have hne : ¬(n = 0) := by omega
    simp [BatchCreateEvents, hne, getSemCapacity, semaphoreCapacity]
  · intro outcome ids c mc order hn
    have hne : ¬(ids.length = 0) := by omega
    simp [BatchDeleteEvents, hne, getSemCapacity, semaphoreCapacity]

/-- C8 witness: the default applies at MaxConcurrent = 0 and the value
7 is used unchanged. -/
theorem C8_concurrency_default_no_clamp_witness :
    (0 : Nat) < 1 ∧
      getSemCapacity (BatchCreateEvents (fun _ => Except.ok "x") 1 true 0 [0]) = some 5 ∧
      getSemCapacity (BatchDeleteEvents (fun _ => none) ["a"] true 7 [0]) = some 7 :=
  ⟨by decide,
    by simpa using C8_concurrency_default_no_clamp.1 (fun _ => Except.ok "x") 1 true 0 [0]
          (by decide),
    by simpa using C8_concurrency_default_no_clamp.2 (fun _ => none) ["a"] true 7 [0]
          (by decide)⟩

/-- A concrete fetch outcome for the multi-calendar counterexample:
calendar "a" succeeds with one event, every other calendar fails. -/
def fetchC3 : String → Except GoError (List EventM) := fun id =>
  if id == "a" then .ok [{ startDateTime := "2024-01-15T10:00:00Z", startDate := "" }]
  else .error (.apiError 500 "backend error")

/-- C3 counterexample: in ListEventsMultiCalendar over calendars "a"
(succeeding, one event) and "b" (failing), the whole call fails —
there is no continueOnError to set — and the successfully fetched
events of "a" are discarded with the error return. -/
theorem C3_aggregation_total_failure_cex :
    isErrorResult (ListEventsMultiCalendar fetchC3 ["a", "b"] [0, 1]) = true ∧
      fetchC3 "a" = .ok [{ startDateTime := "2024-01-15T10:00:00Z", startDate := "" }] := by
  constructor
  · decide
  · decide

theorem multiListStep_errs_mono (fetch : String → Except GoError (List EventM))
    (ids : List String) (st : MultiListState) (i : Nat) (h : st.errs ≠ []) :
    (multiListStep fetch ids st i).errs ≠ [] := by
  simp only [multiListStep]
  cases hf : fetch (ids.getD i "") with
  | error e => simp
  | ok items => simpa using h

theorem multiListFold_errs_mono (fetch : String → Except GoError (List EventM))
    (ids : List String) :
    ∀ (order : List Nat) (st : MultiListState), st.errs ≠ [] →
      (multiListFold fetch ids order st).errs ≠ [] := by
  intro order
  induction order with
  | nil => intro st h; exact h
  | cons j rest ih =>
    intro st h
    exact ih (multiListStep fetch ids st j) (multiListStep_errs_mono fetch ids st j h)

theorem multiListFold_errs_of_fail (fetch : String → Except GoError (List EventM))
    (ids : List String) (i : Nat) (e : GoError)
    (hf : fetch (ids.getD i "") = .error e) :
    ∀ (order : List Nat) (st : MultiListState), i ∈ order →
      (multiListFold fetch ids order st).errs ≠ [] := by
  intro order
  induction order with
  | nil => intro st hmem; simp at hmem
  | cons j rest ih =>
    intro st hmem
    rw [multiListFold]
    rcases List.mem_cons.mp hmem with h1 | h2
    · apply multiListFold_errs_mono
      rw [← h1]
      simp only [multiListStep]
      rw [hf]
      simp
    · exact ih (multiListStep fetch ids st j) h2

/-- C3 (amended): the bulk executors attempt every item and return one
result per item, each determined by that item's own outcome (failures
preserved per item, successes kept), whatever continueOnError is; but
the multi-calendar aggregation offers no continueOnError, and any single
calendar's fetch failure makes the whole ListEventsMultiCalendar call
fail, discarding the successful calendars' events. -/
theorem C3_partial_failure_semantics :
    (∀ (outcome : Nat → Except GoError String) (n : Nat) (continueOnError : Bool)
        (maxConcurrent : Int) (order : List Nat), order.Perm (List.range n) → 0 < n →
      batchResultsOf (BatchCreateEvents outcome n continueOnError maxConcurrent order) =
        some ((List.range n).map fun i => some (createResult i (outcome i)))) ∧
    (∀ (fetch : String → Except GoError (List EventM)) (calendarIDs : List String)
        (order : List Nat) (i : Nat) (e : GoError), i ∈ order → i < calendarIDs.length →
      fetch (calendarIDs.getD i "") = .error e →
      isErrorResult (ListEventsMultiCalendar fetch calendarIDs order) = true) := by
  constructor
  · intro outcome n c mc order hperm hn
    have hne : ¬(n = 0) := by omega
    simp only [BatchCreateEvents, if_neg hne, batchResultsOf]
    rw [writeSlots_perm _ n order hperm]
  · intro fetch ids order i e hmem hlen hf
    have hne : ¬(ids.length = 0) := by omega
    simp only [ListEventsMultiCalendar, if_neg hne]
    have herrs := multiListFold_errs_of_fail fetch ids i e hf order
      { events := [], byCalendar := [], errs := [] } hmem
    cases hcase : (multiListFold fetch ids order
        { events := [], byCalendar := [], errs := [] }).errs with
    | nil => exact absurd hcase herrs
    | cons e0 rest => simp [isErrorResult]

/-- C3 witness: a batch create of two items whose second fails keeps
both per-item results even with continueOnError = false; and the
aggregation over ["a", "b"] with "b" failing returns a total error. -/
theorem C3_partial_failure_semantics_witness :
    ([1, 0] : List Nat).Perm (List.range 2) ∧
      batchResultsOf (BatchCreateEvents
          (fun i => if i = 1 then Except.error (ErrInvalidInput "summary" "missing")
            else Except.ok "created") 2 false 5 [1, 0]) =
        some ((List.range 2).map fun i => some (createResult i
          (if i = 1 then Except.error (ErrInvalidInput "summary" "missing")
            else Except.ok "created"))) ∧
      fetchC3 (["a", "b"].getD 1 "") = Except.error (GoError.apiError 500 "backend error") ∧
      isErrorResult (ListEventsMultiCalendar fetchC3 ["a", "b"] [0, 1]) = true :=
  ⟨by decide,
    C3_partial_failure_semantics.1
      (fun i => if i = 1 then Except.error (ErrInvalidInput "summary" "missing")
        else Except.ok "created") 2 false 5 [1, 0] (by decide) (by decide),
    by decide,
    C3_partial_failure_semantics.2 fetchC3 ["a", "b"] [0, 1] 1
      (GoError.apiError 500 "backend error") (by decide) (by decide) (by decide)⟩

/-- The America/New_York location in January (EST, UTC-05:00). -/
def nyLocation : Location := { name := "America/New_York", offsetMinutes := -300 }

def utcLocation : Location := { name := "UTC", offsetMinutes := 0 }

/-- Monday 2024-01-15 10:00 as a civil reading. -/
def mondayJan15 : DateTime :=
  { year := 2024, month := 1, day := 15, hour := 10, minute := 0, second := 0 }

/-- C5 counterexample: with identical caller-supplied arguments (the
text "now" and the America/New_York timezone), two parses disagree when
the ambient process clock — which ParseNaturalLanguageDate reads itself
via time.Now() and which the caller cannot supply — differs, so the
result is not a function of the declared inputs alone. -/
theorem C5_ambient_clock_dependence_cex :
    ParseNaturalLanguageDate mondayJan15 nyLocation "now" (some nyLocation) =
        .ok "2024-01-15T10:00:00-05:00" ∧
      ParseNaturalLanguageDate { mondayJan15 with day := 16 } nyLocation "now"
          (some nyLocation) =
        .ok "2024-01-16T10:00:00-05:00" ∧
      ("2024-01-15T10:00:00-05:00" : String) ≠ "2024-01-16T10:00:00-05:00" := by
  refine ⟨by decide, by decide, by decide⟩

/-- C5 (amended): the parser's result is a function of the text, the
timezone, and the ambient clock reading taken inside the call (not
supplied by the caller); once the clock reading is fixed, parsing is
deterministic, and with a caller-supplied timezone the process-local
timezone default has no influence on the result. -/
theorem C5_parser_determinism_given_clock :
    ∀ (sysNow : DateTime) (localTz1 localTz2 : Location) (input : String) (tzloc : Location),
      ParseNaturalLanguageDate sysNow localTz1 input (some tzloc) =
        ParseNaturalLanguageDate sysNow localTz2 input (some tzloc) := by
  intro sysNow l1 l2 input tzloc
  rfl

/-- C9: with the clock reading Monday 2024-01-15 10:00 in
America/New_York (weekday check included: Go numbering, Monday = 1),
parsing "tomorrow at 2pm" with that timezone succeeds and yields
exactly 2024-01-16T14:00:00-05:00. -/
theorem C9_tomorrow_at_2pm :
    weekday mondayJan15 = 1 ∧
      ParseNaturalLanguageDate mondayJan15 utcLocation "tomorrow at 2pm" (some nyLocation) =
        .ok "2024-01-16T14:00:00-05:00" := by
  constructor
  · decide
  · decide

end GcalCli
